import Mathlib

/-!
Verification development for the OAuth 2.1 authorization-code-with-PKCE core
of the extend-ai-toolkit repository
(`src/extend_ai_toolkit/modelcontextprotocol/{auth,storage}` and
`oauth_routes.py`), shallowly embedded in Lean 4.

Modelling conventions:
* Python `str` is Lean `String` (a list of Unicode scalar values); `bytes`
  is `List Nat` with every element `< 256`.
* `datetime` values are `Nat` timestamps; `datetime.now()` becomes an
  explicit `now : Nat` argument, and comparisons keep the source's
  strictness.
* The two JSON-file stores hold a single dict each; an operation is a
  load-mutate-save sequence under a lock, so each store is embedded as its
  in-memory map (`List (String × _)` with Python-dict insert/delete
  semantics) and each operation as a pure state transformer.
* Randomness (`secrets.token_bytes`) is passed in as an explicit argument
  (the fresh token / fresh bytes an invocation draws).
* A Python function that can raise is embedded with an `Option`/`Except`
  result; a `try/except` wrapper is the corresponding total function.
-/

/-- Python truthiness of an optional string (`None` and `""` are falsy). -/
def pyTruthy (o : Option String) : Bool :=
  match o with
  | none => false
  | some s => !s.isEmpty

/-- All characters of a string are ASCII, i.e. `s.encode('ascii')` succeeds. -/
def allAscii (s : String) : Bool :=
  s.data.all (fun c => c.toNat < 128)

/-! ### Python dict as an association list

`mlookup`, `minsert`, `merase` model `d.get(k)`, `d[k] = v`, `del d[k]`
on a `dict` with string keys. -/

def mlookup {α : Type} : List (String × α) → String → Option α
  | [], _ => none
  | (k', v) :: rest, k => if k' = k then some v else mlookup rest k

def minsert {α : Type} : List (String × α) → String → α → List (String × α)
  | [], k, v => [(k, v)]
  | (k', v') :: rest, k, v =>
      if k' = k then (k, v) :: rest else (k', v') :: minsert rest k v

def merase {α : Type} : List (String × α) → String → List (String × α)
  | [], _ => []
  | (k', v') :: rest, k =>
      if k' = k then merase rest k else (k', v') :: merase rest k

/-! ### UTF-8 (`str.encode('utf-8')` / `bytes.decode('utf-8')`) -/

/-- UTF-8 encoding of one Unicode scalar value (`n` is the code point). -/
def utf8EncodeChar (c : Char) : List Nat :=
  if c.toNat < 0x80 then [c.toNat]
  else if c.toNat < 0x800 then [0xC0 + c.toNat / 64, 0x80 + c.toNat % 64]
  else if c.toNat < 0x10000 then
    [0xE0 + c.toNat / 4096, 0x80 + c.toNat / 64 % 64, 0x80 + c.toNat % 64]
  else
    [0xF0 + c.toNat / 262144, 0x80 + c.toNat / 4096 % 64,
     0x80 + c.toNat / 64 % 64, 0x80 + c.toNat % 64]

/-- Model of `s.encode('utf-8')`. Total: Lean `Char` excludes the surrogates, the only
code points CPython refuses to encode. -/
def utf8EncodeStr (s : String) : List Nat :=
  (s.data.map utf8EncodeChar).flatten

/-- Decode one UTF-8 sequence from the head of a byte list: the scalar and
the remaining bytes, or `none` on any malformed head (stray continuation
byte, truncated sequence — missing bytes read as the out-of-range 256 —
overlong form, surrogate, value above U+10FFFF). -/
def utf8DecodeOne : List Nat → Option (Char × List Nat)
  | [] => none
  | b :: rest =>
    if b < 0x80 then some (Char.ofNat b, rest)
    else if b < 0xC2 then none
    else if b < 0xE0 then
      if 0x80 ≤ rest.getD 0 256 ∧ rest.getD 0 256 < 0xC0 then
        some (Char.ofNat ((b - 0xC0) * 64 + (rest.getD 0 256 - 0x80)), rest.drop 1)
      else none
    else if b < 0xF0 then
      if (0x80 ≤ rest.getD 0 256 ∧ rest.getD 0 256 < 0xC0 ∧
          0x80 ≤ rest.getD 1 256 ∧ rest.getD 1 256 < 0xC0) ∧
         ¬(b = 0xE0 ∧ rest.getD 0 256 < 0xA0) ∧
         ¬(b = 0xED ∧ 0xA0 ≤ rest.getD 0 256) then
        some (Char.ofNat ((b - 0xE0) * 4096 + (rest.getD 0 256 - 0x80) * 64 +
          (rest.getD 1 256 - 0x80)), rest.drop 2)
      else none
    else if b < 0xF5 then
      if (0x80 ≤ rest.getD 0 256 ∧ rest.getD 0 256 < 0xC0 ∧
          0x80 ≤ rest.getD 1 256 ∧ rest.getD 1 256 < 0xC0 ∧
          0x80 ≤ rest.getD 2 256 ∧ rest.getD 2 256 < 0xC0) ∧
         ¬(b = 0xF0 ∧ rest.getD 0 256 < 0x90) ∧
         ¬(b = 0xF4 ∧ 0x90 ≤ rest.getD 0 256) then
        some (Char.ofNat ((b - 0xF0) * 262144 + (rest.getD 0 256 - 0x80) * 4096 +
          (rest.getD 1 256 - 0x80) * 64 + (rest.getD 2 256 - 0x80)), rest.drop 3)
      else none
    else none

/-- Fuel-indexed decoding loop; each step consumes at least one byte, so
fuel at least the list length never runs out. -/
def utf8DecodeLoop : Nat → List Nat → Option (List Char)
  | _, [] => some []
  | 0, _ :: _ => none
  | fuel + 1, b :: rest =>
    (utf8DecodeOne (b :: rest)).bind fun p =>
      (utf8DecodeLoop fuel p.2).map (fun cs => p.1 :: cs)

/-- Model of `bytes.decode('utf-8')`: strict decoding, sequence by sequence. -/
def utf8DecodeBytes (l : List Nat) : Option (List Char) :=
  utf8DecodeLoop l.length l

/-- Model of `bytes.decode('utf-8')` packaged as a Python `str`. -/
def utf8DecodeStr (l : List Nat) : Option String :=
  (utf8DecodeBytes l).map String.mk

/-! ### Base64 (`base64.b64encode` / `base64.b64decode` /
`base64.urlsafe_b64encode`) -/

/-- The standard base64 alphabet, as indexed by `base64.b64encode`. -/
def b64Alphabet : List Char :=
  ("ABCDEFGHIJKLMNOPQRSTUVWXYZabcdefghijklmnopqrstuvwxyz0123456789+/").data

/-- The URL-safe base64 alphabet (`base64.urlsafe_b64encode`). -/
def b64UrlAlphabet : List Char :=
  ("ABCDEFGHIJKLMNOPQRSTUVWXYZabcdefghijklmnopqrstuvwxyz0123456789-_").data

def b64Char (n : Nat) : Char := b64Alphabet.getD n 'A'

def isB64Char (c : Char) : Bool := b64Alphabet.contains c

/-- Index of a character in the standard alphabet, `none` for non-members. -/
def b64Val (c : Char) : Option Nat :=
  let i := b64Alphabet.indexOf c
  if i < 64 then some i else none

/-- Model of `base64.b64encode` on a byte string, producing the padded character
sequence three bytes → four characters. -/
def b64encodeChars : List Nat → List Char
  | [] => []
  | [a] => [b64Char (a / 4), b64Char (a % 4 * 16), '=', '=']
  | [a, b] => [b64Char (a / 4), b64Char (a % 4 * 16 + b / 16),
               b64Char (b % 16 * 4), '=']
  | a :: b :: c :: rest =>
      b64Char (a / 4) :: b64Char (a % 4 * 16 + b / 16) ::
      b64Char (b % 16 * 4 + c / 64) :: b64Char (c % 64) :: b64encodeChars rest

/-- Decode four-character quanta; `'='` padding is accepted only as the
tail of the final quantum, matching what `binascii.a2b_base64` accepts on
well-formed input. -/
def b64decodeQuanta : List Char → Option (List Nat)
  | [] => some []
  | c1 :: c2 :: c3 :: c4 :: rest =>
    (b64Val c1).bind fun v1 =>
    (b64Val c2).bind fun v2 =>
      if c3 = '=' ∧ c4 = '=' ∧ rest = [] then
        some [v1 * 4 + v2 / 16]
      else if c4 = '=' ∧ rest = [] then
        (b64Val c3).bind fun v3 =>
          some [v1 * 4 + v2 / 16, v2 % 16 * 16 + v3 / 4]
      else
        (b64Val c3).bind fun v3 =>
        (b64Val c4).bind fun v4 =>
          (b64decodeQuanta rest).map
            (fun t => (v1 * 4 + v2 / 16) :: (v2 % 16 * 16 + v3 / 4) ::
                      (v3 % 4 * 64 + v4) :: t)
  | _ => none

/-- Model of `base64.b64decode` (legacy non-strict mode): characters outside the
alphabet and `'='` are discarded, then the remaining length must be a
multiple of four (else `binascii.Error: Incorrect padding`). -/
def b64decodeChars (s : List Char) : Option (List Nat) :=
  let cs := s.filter (fun c => isB64Char c || c == '=')
  if cs.length % 4 = 0 then b64decodeQuanta cs else none

/-- Model of `base64.urlsafe_b64encode(bs).decode('ascii').rstrip('=')`, the shape
used for tokens, codes and PKCE challenges throughout `crypto_utils.py`. -/
def b64UrlNoPad (bs : List Nat) : String :=
  String.mk (((b64encodeChars bs).map
    (fun c => if c = '+' then '-' else if c = '/' then '_' else c)).filter
      (fun c => c ≠ '='))

/-! ### Repeating-key XOR (`simple_encrypt` / `simple_decrypt` body) -/

/-- Model of `(key_bytes * (n // len(key_bytes) + 1))[:n]`: the key repeated and cut
to length `n`. -/
def extendKey (kb : List Nat) (n : Nat) : List Nat :=
  ((List.replicate (n / kb.length + 1) kb).flatten).take n

/-- Model of `bytes(a ^ b for a, b in zip(xs, ks))`. -/
def xorBytes (xs ks : List Nat) : List Nat :=
  List.zipWith (fun a b => a ^^^ b) xs ks

/-! ### SHA-256 (`hashlib.sha256(...).digest()`)

Full implementation over byte lists, 32-bit words as `Nat % 2^32`. -/

def w32 (n : Nat) : Nat := n % 4294967296

def rotr32 (x n : Nat) : Nat := w32 ((x >>> n) ||| (x <<< (32 - n)))

def shaSmallSigma0 (x : Nat) : Nat := rotr32 x 7 ^^^ rotr32 x 18 ^^^ (x >>> 3)

def shaSmallSigma1 (x : Nat) : Nat := rotr32 x 17 ^^^ rotr32 x 19 ^^^ (x >>> 10)

def shaBigSigma0 (x : Nat) : Nat := rotr32 x 2 ^^^ rotr32 x 13 ^^^ rotr32 x 22

def shaBigSigma1 (x : Nat) : Nat := rotr32 x 6 ^^^ rotr32 x 11 ^^^ rotr32 x 25

def shaK : List Nat :=
  [1116352408, 1899447441, 3049323471, 3921009573, 961987163,
   1508970993, 2453635748, 2870763221, 3624381080, 310598401,
   607225278, 1426881987, 1925078388, 2162078206, 2614888103,
   3248222580, 3835390401, 4022224774, 264347078, 604807628,
   770255983, 1249150122, 1555081692, 1996064986, 2554220882,
   2821834349, 2952996808, 3210313671, 3336571891, 3584528711,
   113926993, 338241895, 666307205, 773529912, 1294757372,
   1396182291, 1695183700, 1986661051, 2177026350, 2456956037,
   2730485921, 2820302411, 3259730800, 3345764771, 3516065817,
   3600352804, 4094571909, 275423344, 430227734, 506948616,
   659060556, 883997877, 958139571, 1322822218, 1537002063,
   1747873779, 1955562222, 2024104815, 2227730452, 2361852424,
   2428436474, 2756734187, 3204031479, 3329325298]

def shaH0 : List Nat :=
  [1779033703, 3144134277, 1013904242, 2773480762,
   1359893119, 2600822924, 528734635, 1541459225]

/-- Pad a message to a multiple of 64 bytes: `0x80`, zeros, 8-byte
big-endian bit length. -/
def shaPad (msg : List Nat) : List Nat :=
  let len := msg.length
  let padlen := (119 - len % 64) % 64
  let bl := (len * 8) % 18446744073709551616
  msg ++ 0x80 :: List.replicate padlen 0 ++
    [bl >>> 56 % 256, bl >>> 48 % 256, bl >>> 40 % 256, bl >>> 32 % 256,
     bl >>> 24 % 256, bl >>> 16 % 256, bl >>> 8 % 256, bl % 256]

/-- Big-endian 4-byte groups to 32-bit words. -/
def bytesToWords : List Nat → List Nat
  | b1 :: b2 :: b3 :: b4 :: rest =>
      (b1 * 16777216 + b2 * 65536 + b3 * 256 + b4) :: bytesToWords rest
  | _ => []

/-- Split a word list into 16-word blocks. -/
def wordBlocks (ws : List Nat) : List (List Nat) :=
  if h : ws = [] then []
  else ws.take 16 :: wordBlocks (ws.drop 16)
termination_by ws.length
decreasing_by
  simp only [List.length_drop]
  have := List.length_pos.mpr h
  omega

/-- Extend the 16 block words to the 64-entry message schedule. -/
def shaExtend (block : List Nat) : List Nat :=
  (List.range 48).foldl (fun ws _ =>
    let i := ws.length
    let s0 := shaSmallSigma0 (ws.getD (i - 15) 0)
    let s1 := shaSmallSigma1 (ws.getD (i - 2) 0)
    ws ++ [w32 (ws.getD (i - 16) 0 + s0 + ws.getD (i - 7) 0 + s1)]) block

/-- One round of the SHA-256 compression loop on state `[a,b,c,d,e,f,g,h]`. -/
def shaStep (st : List Nat) (wk : Nat × Nat) : List Nat :=
  let a := st.getD 0 0
  let b := st.getD 1 0
  let c := st.getD 2 0
  let d := st.getD 3 0
  let e := st.getD 4 0
  let f := st.getD 5 0
  let g := st.getD 6 0
  let hh := st.getD 7 0
  let ch := (e &&& f) ^^^ ((e ^^^ 4294967295) &&& g)
  let temp1 := w32 (hh + shaBigSigma1 e + ch + wk.2 + wk.1)
  let maj := (a &&& b) ^^^ (a &&& c) ^^^ (b &&& c)
  let temp2 := w32 (shaBigSigma0 a + maj)
  [w32 (temp1 + temp2), a, b, c, w32 (d + temp1), e, f, g]

/-- Compress one 16-word block into the running hash state. -/
def shaCompress (h block : List Nat) : List Nat :=
  let st := ((shaExtend block).zip shaK).foldl shaStep h
  List.zipWith (fun x y => w32 (x + y)) h st

/-- Model of `hashlib.sha256(msg).digest()` as a 32-byte list. -/
def sha256 (msg : List Nat) : List Nat :=
  let hFinal := (wordBlocks (bytesToWords (shaPad msg))).foldl shaCompress shaH0
  (hFinal.map (fun w =>
    [w >>> 24 % 256, w >>> 16 % 256, w >>> 8 % 256, w % 256])).flatten

/-! ### `crypto_utils.py` -/

/-- Model of `generate_secure_token`: 32 random bytes, URL-safe base64 with padding
stripped, prefixed `oauth_`. The drawn random bytes are the argument. -/
def generate_secure_token (randomBytes : List Nat) : String :=
  "oauth_" ++ b64UrlNoPad randomBytes

/-- Model of `generate_authorization_code`: 24 random bytes, URL-safe base64 with
padding stripped, prefixed `code_`. -/
def generate_authorization_code (randomBytes : List Nat) : String :=
  "code_" ++ b64UrlNoPad randomBytes

/-- Model of `generate_pkce_verifier`: 32 random bytes, URL-safe base64, no padding. -/
def generate_pkce_verifier (randomBytes : List Nat) : String :=
  b64UrlNoPad randomBytes

/-- Model of `generate_pkce_challenge`: S256 hashes the ASCII bytes of the verifier
(`none` models the `UnicodeEncodeError` raised on non-ASCII input); plain is
the identity; any other method raises `ValueError` (`none`). -/
def generate_pkce_challenge (verifier method : String) : Option String :=
  if method = "S256" then
    if allAscii verifier then
      some (b64UrlNoPad (sha256 (verifier.data.map Char.toNat)))
    else none
  else if method = "plain" then some verifier
  else none

/-- Model of `verify_pkce_challenge`: recompute and compare with
`secrets.compare_digest`; any exception (unknown method, non-ASCII input to
either the hash or the comparison) yields `false`. -/
def verify_pkce_challenge (code_verifier code_challenge method : String) : Bool :=
  (generate_pkce_challenge code_verifier method).elim false (fun expected =>
    if allAscii expected && allAscii code_challenge then
      expected == code_challenge
    else false)

/-- Model of `simple_encrypt`: UTF-8 encode, XOR with the repeated key, standard
base64. `none` models the `ZeroDivisionError` raised when the key is empty;
no other step can raise. -/
def simple_encrypt (plaintext key : String) : Option String :=
  let keyBytes := utf8EncodeStr key
  if keyBytes.length = 0 then none
  else
    let pb := utf8EncodeStr plaintext
    some (String.mk (b64encodeChars (xorBytes pb (extendKey keyBytes pb.length))))

/-- Body of `simple_decrypt`'s `try` block: ASCII-encode the input, base64
decode, XOR with the repeated key, UTF-8 decode; `none` at whichever step
raises (non-ASCII input, bad base64 padding, empty key, invalid UTF-8). -/
def simple_decryptTry (encrypted key : String) : Option String :=
  if allAscii encrypted then
    (b64decodeChars encrypted.data).bind fun encBytes =>
      if (utf8EncodeStr key).length = 0 then none
      else utf8DecodeStr (xorBytes encBytes (extendKey (utf8EncodeStr key) encBytes.length))
  else none

/-- Model of `simple_decrypt`: the `try` body with the `except`-clause fallback that
returns the input unchanged (the documented assume-it-was-plaintext
backwards-compatibility policy). -/
def simple_decrypt (encrypted key : String) : String :=
  (simple_decryptTry encrypted key).getD encrypted

/-! ### `storage/base.py` — `TokenData` -/

/-- Model of `TokenData` from `storage/base.py`. `expires_at` is the parsed ISO
timestamp (`none` models the Python `None` default); `created_at` is ignored
by every operation and kept as an opaque string. -/
structure TokenData where
  token : String
  user_email : String
  extend_api_key : String
  extend_api_secret : String
  expires_at : Option Nat
  created_at : String
deriving DecidableEq, Repr

/-- Model of `TokenData.is_expired`: `False` when no expiry is set, else
`fromisoformat(expires_at) < now()`. -/
def TokenData.is_expired (d : TokenData) (now : Nat) : Bool :=
  match d.expires_at with
  | none => false
  | some e => e < now

/-! ### `auth/auth_code_store.py` — `AuthCodeData` -/

/-- Model of `AuthCodeData` from `auth/auth_code_store.py`; `expires_at` is set to
`created_at + 10` minutes at construction time. -/
structure AuthCodeData where
  code : String
  user_email : String
  extend_api_key : String
  extend_api_secret : String
  code_challenge : String
  code_challenge_method : String
  client_id : Option String
  redirect_uri : Option String
  state : Option String
  created_at : Nat
  expires_at : Nat
deriving DecidableEq, Repr

/-- Model of `AuthCodeData.is_expired`: `datetime.now() > self.expires_at`. -/
def AuthCodeData.is_expired (d : AuthCodeData) (now : Nat) : Bool :=
  d.expires_at < now

/-- The fresh-expiry invariant of `AuthCodeData.__init__`:
`expires_at = created_at + timedelta(minutes=10)` (timestamps in seconds). -/
def AuthCodeData.freshExpiry (d : AuthCodeData) : Prop :=
  d.expires_at = d.created_at + 600

abbrev TokenMap := List (String × TokenData)

abbrev CodeMap := List (String × AuthCodeData)

/-! ### `storage/file_store.py` — `JSONTokenStore`

Each operation loads the JSON dict, mutates, saves, under the store lock;
the embedding is the dict transformer. -/

/-- Model of `JSONTokenStore.get_token`: plain dict lookup — no expiry check and no
mutation. -/
def JSONTokenStore.get_token (m : TokenMap) (t : String) : Option TokenData × TokenMap :=
  (mlookup m t, m)

/-- Model of `JSONTokenStore.store_token`. -/
def JSONTokenStore.store_token (m : TokenMap) (d : TokenData) : TokenMap :=
  minsert m d.token d

/-- Model of `JSONTokenStore.delete_token`: returns whether the token existed
(`if token in tokens`). -/
def JSONTokenStore.delete_token (m : TokenMap) (t : String) : Bool × TokenMap :=
  if (mlookup m t).isSome then (true, merase m t) else (false, m)

/-- Model of `JSONTokenStore.cleanup_expired_tokens`: drop every expired record,
returning the count removed. -/
def JSONTokenStore.cleanup_expired_tokens (m : TokenMap) (now : Nat) : Nat × TokenMap :=
  ((m.filter (fun p => p.2.is_expired now)).length,
   m.filter (fun p => !p.2.is_expired now))

/-! ### `auth/auth_code_store.py` — `AuthCodeStore` operations -/

/-- Model of `AuthCodeStore.get_auth_code`: plain dict lookup — no expiry check and
no mutation. -/
def AuthCodeStore.get_auth_code (m : CodeMap) (c : String) : Option AuthCodeData × CodeMap :=
  (mlookup m c, m)

/-- Model of `AuthCodeStore.store_auth_code`. -/
def AuthCodeStore.store_auth_code (m : CodeMap) (d : AuthCodeData) : CodeMap :=
  minsert m d.code d

/-- Model of `AuthCodeStore.delete_auth_code`: returns whether the code existed
(`if code in codes`). -/
def AuthCodeStore.delete_auth_code (m : CodeMap) (c : String) : Bool × CodeMap :=
  if (mlookup m c).isSome then (true, merase m c) else (false, m)

/-- Model of `AuthCodeStore.cleanup_expired_codes`. -/
def AuthCodeStore.cleanup_expired_codes (m : CodeMap) (now : Nat) : Nat × CodeMap :=
  ((m.filter (fun p => p.2.is_expired now)).length,
   m.filter (fun p => !p.2.is_expired now))

/-! ### `storage/dynamodb_store.py` — `DynamoDBTokenStore`

The DynamoDB table is embedded as the same token map (one item per key);
the error paths raised on `ClientError` are outside the model, which covers
the backend's behaviour when requests succeed. -/

/-- Model of `DynamoDBTokenStore.get_token`: unlike the JSON store, an expired item
is deleted and reported absent. -/
def DynamoDBTokenStore.get_token (now : Nat) (m : TokenMap) (t : String) :
    Option TokenData × TokenMap :=
  (mlookup m t).elim (none, m) (fun d =>
    if d.is_expired now then (none, merase m t)
    else (some d, m))

/-- Model of `DynamoDBTokenStore.delete_token` (`ReturnValues='ALL_OLD'`): returns
whether the item existed. -/
def DynamoDBTokenStore.delete_token (m : TokenMap) (t : String) : Bool × TokenMap :=
  if (mlookup m t).isSome then (true, merase m t) else (false, m)

/-! ### `auth/oauth_handler.py` — `OAuthHandler`

The handler owns a token store and an auth-code store; its state is the
pair of maps. `token_expiry_hours` is the configured TTL and
`self._encryption_key` the fixed obfuscation key. -/

/-- The hard-coded `self._encryption_key` of `OAuthHandler.__init__`. -/
def oauthEncryptionKey : String := "mcp_oauth_key_2024"

structure OAuthState where
  codes : CodeMap
  tokens : TokenMap
deriving DecidableEq, Repr

/-- Model of `OAuthHandler.validate_bearer_token`, over the JSON token store: reject
non-`oauth_`-prefixed tokens, drop-and-delete expired ones, and decrypt the
credential fields (only when both are non-empty) on a valid hit. -/
def OAuthHandler.validate_bearer_token (now : Nat) (m : TokenMap) (token : String) :
    Option TokenData × TokenMap :=
  if token.isEmpty || !(("oauth_".data).isPrefixOf token.data) then (none, m)
  else
    (mlookup m token).elim (none, m) (fun d =>
      if d.is_expired now then (none, merase m token)
      else if !d.extend_api_key.isEmpty && !d.extend_api_secret.isEmpty then
        (some { d with
                  extend_api_key := simple_decrypt d.extend_api_key oauthEncryptionKey,
                  extend_api_secret := simple_decrypt d.extend_api_secret oauthEncryptionKey },
         m)
      else (some d, m))

/-- The token response dict returned by a successful
`OAuthHandler.exchange_code_for_token`. -/
structure TokenResponse where
  access_token : String
  token_type : String
  expires_in : Nat
  scope : String
deriving DecidableEq, Repr

/-- Model of `OAuthHandler.exchange_code_for_token`. `ttlHours` is
`oauth_config.token_expiry_hours`, `freshToken` the value drawn by
`generate_secure_token()`, `now` the clock. Raised `ValueError`s (which the
`/token` route maps to HTTP 400 `invalid_grant`) are `Except.error` with the
source's message. -/
def OAuthHandler.exchange_code_for_token (ttlHours : Nat) (freshToken : String)
    (now : Nat) (st : OAuthState) (auth_code code_verifier : String)
    (client_id redirect_uri : Option String) :
    Except String TokenResponse × OAuthState :=
  (mlookup st.codes auth_code).elim (Except.error "Invalid authorization code", st)
    (fun auth_data =>
    if auth_data.is_expired now then
      (Except.error "Authorization code expired",
       { st with codes := merase st.codes auth_code })
    else if !verify_pkce_challenge code_verifier auth_data.code_challenge
              auth_data.code_challenge_method then
      (Except.error "Invalid PKCE code verifier", st)
    else if pyTruthy client_id && pyTruthy auth_data.client_id &&
            client_id.getD "" ≠ auth_data.client_id.getD "" then
      (Except.error "Client ID mismatch", st)
    else if pyTruthy redirect_uri && pyTruthy auth_data.redirect_uri &&
            redirect_uri.getD "" ≠ auth_data.redirect_uri.getD "" then
      (Except.error "Redirect URI mismatch", st)
    else
      let token_data : TokenData :=
        { token := freshToken
          user_email := auth_data.user_email
          extend_api_key := auth_data.extend_api_key
          extend_api_secret := auth_data.extend_api_secret
          expires_at := some (now + ttlHours * 3600)
          created_at := "" }
      (Except.ok
        { access_token := freshToken
          token_type := "Bearer"
          expires_in := ttlHours * 3600
          scope := "mcp" },
       { codes := merase st.codes auth_code
         tokens := JSONTokenStore.store_token st.tokens token_data }))

/-- Model of `OAuthHandler.revoke_token`: unconditional delegation to
`delete_token`. -/
def OAuthHandler.revoke_token (m : TokenMap) (token : String) : Bool × TokenMap :=
  JSONTokenStore.delete_token m token

/-! ### `oauth_routes.py` — `OAuthEndpoints.revoke_endpoint` -/

/-- Body shapes the revoke endpoint can produce. -/
inductive RevokeBody where
  | revokedTrue
  | invalidRequest
deriving DecidableEq, Repr

/-- Model of `OAuthEndpoints.revoke_endpoint`: `form.get("token")` is the optional
form field; a missing or empty token is rejected with HTTP 400
`invalid_request`, otherwise the handler revokes and the response is
HTTP 200 with body `revoked: true` whether or not the token existed. -/
def OAuthEndpoints.revoke_endpoint (formToken : Option String) (m : TokenMap) :
    (Nat × RevokeBody) × TokenMap :=
  if !pyTruthy formToken then ((400, RevokeBody.invalidRequest), m)
  else
    let r := OAuthHandler.revoke_token m (formToken.getD "")
    ((200, RevokeBody.revokedTrue), r.2)

/-! ### JSON (`json.loads`) — needed by the file stores' load path -/

inductive Json where
  | null
  | bool (b : Bool)
  | num (lexeme : String)
  | str (s : String)
  | arr (items : List Json)
  | obj (fields : List (String × Json))

def lbraceChar : Char := Char.ofNat 123

def rbraceChar : Char := Char.ofNat 125

def isJsonWs (c : Char) : Bool :=
  c = ' ' || c = '\t' || c = '\n' || c = '\r'

def skipWs (cs : List Char) : List Char := cs.dropWhile isJsonWs

def isDigitChar (c : Char) : Bool := '0' ≤ c && c ≤ '9'

def hexVal (c : Char) : Option Nat :=
  if '0' ≤ c && c ≤ '9' then some (c.toNat - 48)
  else if 'a' ≤ c && c ≤ 'f' then some (c.toNat - 87)
  else if 'A' ≤ c && c ≤ 'F' then some (c.toNat - 55)
  else none

/-- Body of a JSON string literal after the opening quote: returns the
content and the input following the closing quote. Raw control characters
are rejected (CPython `strict=True`); `\uXXXX` escapes are accepted
syntactically, the decoded character mapped through `Char.ofNat` (CPython
additionally reassembles surrogate pairs — the stores never inspect parsed
string values, only the overall success of the parse). -/
def parseStringBody : List Char → Option (List Char × List Char)
  | [] => none
  | c :: rest =>
    if c = '"' then some ([], rest)
    else if c = '\\' then
      match rest with
      | [] => none
      | e :: rest2 =>
        if e = '"' ∨ e = '\\' ∨ e = '/' then
          (parseStringBody rest2).map (fun p => (e :: p.1, p.2))
        else if e = 'b' then
          (parseStringBody rest2).map (fun p => (Char.ofNat 8 :: p.1, p.2))
        else if e = 'f' then
          (parseStringBody rest2).map (fun p => (Char.ofNat 12 :: p.1, p.2))
        else if e = 'n' then
          (parseStringBody rest2).map (fun p => ('\n' :: p.1, p.2))
        else if e = 'r' then
          (parseStringBody rest2).map (fun p => ('\r' :: p.1, p.2))
        else if e = 't' then
          (parseStringBody rest2).map (fun p => ('\t' :: p.1, p.2))
        else if e = 'u' then
          match rest2 with
          | h1 :: h2 :: h3 :: h4 :: rest3 =>
            match hexVal h1, hexVal h2, hexVal h3, hexVal h4 with
            | some v1, some v2, some v3, some v4 =>
                (parseStringBody rest3).map
                  (fun p => (Char.ofNat (v1 * 4096 + v2 * 256 + v3 * 16 + v4) :: p.1, p.2))
            | _, _, _, _ => none
          | _ => none
        else none
    else if c.toNat < 32 then none
    else (parseStringBody rest).map (fun p => (c :: p.1, p.2))

/-- Lexeme of a JSON number (CPython `NUMBER_RE`):
`-? (0 | [1-9][0-9]*) (\.[0-9]+)? ([eE][+-]?[0-9]+)?`. Returns the lexeme
and the rest. -/
def parseNumberLex (cs : List Char) : Option (List Char × List Char) :=
  let (sign, cs1) :=
    match cs with
    | '-' :: t => (['-'], t)
    | _ => (([] : List Char), cs)
  match cs1 with
  | [] => none
  | c :: _ =>
    if !isDigitChar c then none
    else
      let (ip, cs2) :=
        if c = '0' then (['0'], cs1.drop 1)
        else (cs1.takeWhile isDigitChar, cs1.dropWhile isDigitChar)
      let (fp, cs3) :=
        match cs2 with
        | '.' :: t =>
          let ds := t.takeWhile isDigitChar
          if ds.isEmpty then (([] : List Char), cs2)
          else ('.' :: ds, t.dropWhile isDigitChar)
        | _ => (([] : List Char), cs2)
      if cs3.length < cs2.length ∨ fp.isEmpty then
        match cs3 with
        | e :: t =>
          if e = 'e' ∨ e = 'E' then
            let (es, t2) :=
              match t with
              | '+' :: t' => (['+'], t')
              | '-' :: t' => (['-'], t')
              | _ => (([] : List Char), t)
            let ds := t2.takeWhile isDigitChar
            if ds.isEmpty then some (sign ++ ip ++ fp, cs3)
            else some (sign ++ ip ++ fp ++ e :: es ++ ds, t2.dropWhile isDigitChar)
          else some (sign ++ ip ++ fp, cs3)
        | [] => some (sign ++ ip ++ fp, cs3)
      else none

/-- Drop an expected literal word, or fail. -/
def dropLit (word : String) (cs : List Char) : Option (List Char) :=
  if word.data.isPrefixOf cs then some (cs.drop word.length) else none

mutual

/-- Model of the `json.loads` value scanner (fuel-indexed; the fuel passed at top level
strictly dominates the recursion depth, so it never runs out on real
input). Accepts the CPython default extensions `NaN`, `Infinity`,
`-Infinity`. -/
def parseValue : Nat → List Char → Option (Json × List Char)
  | 0, _ => none
  | fuel + 1, cs =>
    match cs with
    | [] => none
    | c :: rest =>
      if c = '"' then
        (parseStringBody rest).map (fun p => (Json.str (String.mk p.1), p.2))
      else if c = lbraceChar then
        match skipWs rest with
        | d :: rest1 =>
          if d = rbraceChar then some (Json.obj [], rest1)
          else (parseMembers fuel (d :: rest1)).map (fun p => (Json.obj p.1, p.2))
        | [] => none
      else if c = '[' then
        match skipWs rest with
        | d :: rest1 =>
          if d = ']' then some (Json.arr [], rest1)
          else (parseItems fuel (d :: rest1)).map (fun p => (Json.arr p.1, p.2))
        | [] => none
      else if c = 'n' then
        (dropLit "null" cs).map (fun r => (Json.null, r))
      else if c = 't' then
        (dropLit "true" cs).map (fun r => (Json.bool true, r))
      else if c = 'f' then
        (dropLit "false" cs).map (fun r => (Json.bool false, r))
      else if c = 'N' then
        (dropLit "NaN" cs).map (fun r => (Json.num "NaN", r))
      else if c = 'I' then
        (dropLit "Infinity" cs).map (fun r => (Json.num "Infinity", r))
      else
        match dropLit "-Infinity" cs with
        | some r => some (Json.num "-Infinity", r)
        | none =>
          (parseNumberLex cs).map (fun p => (Json.num (String.mk p.1), p.2))

/-- Members of a JSON object after the opening brace (first key expected at
the head of the input). -/
def parseMembers : Nat → List Char → Option (List (String × Json) × List Char)
  | 0, _ => none
  | fuel + 1, cs =>
    match cs with
    | c :: rest =>
      if c = '"' then
        match parseStringBody rest with
        | some (key, rest1) =>
          match skipWs rest1 with
          | ':' :: rest2 =>
            match parseValue fuel (skipWs rest2) with
            | some (v, rest3) =>
              match skipWs rest3 with
              | ',' :: rest4 =>
                (parseMembers fuel (skipWs rest4)).map
                  (fun p => ((String.mk key, v) :: p.1, p.2))
              | d :: rest4 =>
                if d = rbraceChar then some ([(String.mk key, v)], rest4) else none
              | [] => none
            | none => none
          | _ => none
        | none => none
      else none
    | [] => none

/-- Items of a JSON array after the opening bracket. -/
def parseItems : Nat → List Char → Option (List Json × List Char)
  | 0, _ => none
  | fuel + 1, cs =>
    match parseValue fuel cs with
    | some (v, rest) =>
      match skipWs rest with
      | ',' :: rest1 => (parseItems fuel (skipWs rest1)).map (fun p => (v :: p.1, p.2))
      | ']' :: rest1 => some ([v], rest1)
      | _ => none
    | none => none

end

/-- Model of `json.loads`: parse one value, allowing surrounding whitespace and
rejecting trailing data. -/
def parseJson (s : String) : Option Json :=
  match parseValue (2 * s.length + 4) (skipWs s.data) with
  | some (j, rest) => if (skipWs rest).isEmpty then some j else none
  | none => none

/-- Model of `JSONTokenStore._load_tokens`: the file content (`none` for a missing
file), parsed; `FileNotFoundError` and `json.JSONDecodeError` are caught
and yield the empty dict. -/
def JSONTokenStore.load_tokens (file : Option String) : Json :=
  match file with
  | none => Json.obj []
  | some content => (parseJson content).getD (Json.obj [])

/-- Model of `AuthCodeStore._load_codes`: identical load policy for the code store. -/
def AuthCodeStore.load_codes (file : Option String) : Json :=
  match file with
  | none => Json.obj []
  | some content => (parseJson content).getD (Json.obj [])


/-! ### Concrete fixtures used by individual claim witnesses and
counterexamples -/

/-- Fixture: a stored bearer token whose expiry (5) is in the past at time 10. -/
def c1Tok : TokenData :=
  { token := "oauth_x", user_email := "u@example.com", extend_api_key := "EK",
    extend_api_secret := "ES", expires_at := some 5, created_at := "" }

/-- Fixture: a stored authorization code whose expiry (5) is in the past at
time 10. -/
def c1Code : AuthCodeData :=
  { code := "code_y", user_email := "u@example.com", extend_api_key := "EK",
    extend_api_secret := "ES", code_challenge := "ch",
    code_challenge_method := "S256", client_id := none, redirect_uri := none,
    state := none, created_at := 0, expires_at := 5 }

/-- Fixture: a live plain-method authorization code record. -/
def c2Code : AuthCodeData :=
  { code := "code_c1", user_email := "u@example.com", extend_api_key := "EK",
    extend_api_secret := "ES", code_challenge := "v",
    code_challenge_method := "plain", client_id := none, redirect_uri := none,
    state := none, created_at := 0, expires_at := 600 }

/-- Fixture: handler state holding just `c2Code`. -/
def c2State0 : OAuthState := { codes := [("code_c1", c2Code)], tokens := [] }

/-- Fixture: the bearer token minted from `c2Code` at time 100 with a
24-hour TTL. -/
def c2Token : TokenData :=
  { token := "oauth_t1", user_email := "u@example.com", extend_api_key := "EK",
    extend_api_secret := "ES", expires_at := some 86500, created_at := "" }

/-- Fixture: handler state after the successful exchange of `c2Code`. -/
def c2State1 : OAuthState := { codes := [], tokens := [("oauth_t1", c2Token)] }

/-- Fixture: the token response of `c2Code`'s exchange. -/
def c2Resp : TokenResponse :=
  { access_token := "oauth_t1", token_type := "Bearer", expires_in := 86400,
    scope := "mcp" }

/-- Fixture: a stored live bearer token with an empty `extend_api_key` and a
base64 `extend_api_secret` (decoding to a value different from itself). -/
def c4Rec : TokenData :=
  { token := "oauth_x", user_email := "u@example.com", extend_api_key := "",
    extend_api_secret := "U2Vj", expires_at := some 1000, created_at := "" }

/-- Fixture: an expired authorization code in a state that also holds one
bearer token. -/
def c5Code : AuthCodeData :=
  { code := "code_e", user_email := "u@example.com", extend_api_key := "EK",
    extend_api_secret := "ES", code_challenge := "v",
    code_challenge_method := "plain", client_id := none, redirect_uri := none,
    state := none, created_at := 0, expires_at := 600 }

/-- Fixture: a stored bearer token unrelated to `c5Code`. -/
def c5Tok : TokenData :=
  { token := "oauth_old", user_email := "w@example.com", extend_api_key := "K2",
    extend_api_secret := "S2", expires_at := some 9999, created_at := "" }

/-- Fixture: handler state with the expired `c5Code` and the token `c5Tok`. -/
def c5State : OAuthState :=
  { codes := [("code_e", c5Code)], tokens := [("oauth_old", c5Tok)] }

/-- Fixture: a stored bearer token to revoke. -/
def c6Rec : TokenData :=
  { token := "oauth_b", user_email := "u@example.com", extend_api_key := "EK",
    extend_api_secret := "ES", expires_at := some 1000, created_at := "" }

/-! ### Lemmas on the dict model -/

theorem mlookup_merase_self {α : Type} (m : List (String × α)) (k : String) :
    mlookup (merase m k) k = none := by
  induction m with
  | nil => rfl
  | cons p rest ih =>
      obtain ⟨k', v'⟩ := p
      by_cases h : k' = k
      · simp [merase, h, ih]
      · simp [merase, mlookup, h, ih]

theorem mlookup_minsert_self {α : Type} (m : List (String × α)) (k : String) (v : α) :
    mlookup (minsert m k v) k = some v := by
  induction m with
  | nil => simp [minsert, mlookup]
  | cons p rest ih =>
      obtain ⟨k', v'⟩ := p
      by_cases h : k' = k
      · simp [minsert, h, mlookup]
      · simp [minsert, mlookup, h, ih]

/-! ### Base64 round-trip lemmas -/

theorem b64Val_b64Char : ∀ n < 64, b64Val (b64Char n) = some n := by decide

theorem isB64Char_b64Char (n : Nat) : isB64Char (b64Char n) = true := by
  by_cases h : n < 64
  · exact (by decide : ∀ m < 64, isB64Char (b64Char m) = true) n h
  · unfold b64Char
    rw [List.getD_eq_default]
    · decide
    · have hl : b64Alphabet.length = 64 := rfl
      omega

theorem b64Char_ne_pad (n : Nat) : b64Char n ≠ '=' := by
  by_cases h : n < 64
  · exact (by decide : ∀ m < 64, b64Char m ≠ '=') n h
  · unfold b64Char
    rw [List.getD_eq_default]
    · decide
    · have hl : b64Alphabet.length = 64 := rfl
      omega

theorem b64encodeChars_mem (bs : List Nat) :
    ∀ c ∈ b64encodeChars bs, (isB64Char c || c == '=') = true := by
  induction bs using b64encodeChars.induct with
  | case1 => intro c hc; simp [b64encodeChars] at hc
  | case2 a =>
      intro c hc
      simp only [b64encodeChars, List.mem_cons, List.not_mem_nil, or_false] at hc
      rcases hc with h | h | h | h
      all_goals subst h
      all_goals simp [isB64Char_b64Char]
  | case3 a b =>
      intro c hc
      simp only [b64encodeChars, List.mem_cons, List.not_mem_nil, or_false] at hc
      rcases hc with h | h | h | h
      all_goals subst h
      all_goals simp [isB64Char_b64Char]
  | case4 a b cc rest ih =>
      intro c hc
      simp only [b64encodeChars, List.mem_cons] at hc
      rcases hc with h | h | h | h | h
      · subst h; simp [isB64Char_b64Char]
      · subst h; simp [isB64Char_b64Char]
      · subst h; simp [isB64Char_b64Char]
      · subst h; simp [isB64Char_b64Char]
      · exact ih c h

theorem b64encodeChars_length (bs : List Nat) :
    (b64encodeChars bs).length % 4 = 0 := by
  induction bs using b64encodeChars.induct with
  | case1 => rfl
  | case2 a => simp [b64encodeChars]
  | case3 a b => simp [b64encodeChars]
  | case4 a b c rest ih =>
      simp only [b64encodeChars, List.length_cons]
      omega

theorem b64decodeQuanta_encode (bs : List Nat) (h : ∀ b ∈ bs, b < 256) :
    b64decodeQuanta (b64encodeChars bs) = some bs := by
  induction bs using b64encodeChars.induct with
  | case1 => rfl
  | case2 a =>
      have ha : a < 256 := h a (by simp)
      simp only [b64encodeChars, b64decodeQuanta]
      rw [b64Val_b64Char _ (by omega), b64Val_b64Char _ (by omega)]
      simp
      omega
  | case3 a b =>
      have ha : a < 256 := h a (by simp)
      have hb : b < 256 := h b (by simp)
      have e3 := b64Val_b64Char (b % 16 * 4) (by omega)
      simp only [b64encodeChars, b64decodeQuanta]
      rw [b64Val_b64Char _ (by omega), b64Val_b64Char _ (by omega)]
      simp [b64Char_ne_pad, e3]
      omega
  | case4 a b c rest ih =>
      have ha : a < 256 := h a (by simp)
      have hb : b < 256 := h b (by simp)
      have hc : c < 256 := h c (by simp)
      have hrest : ∀ x ∈ rest, x < 256 := fun x hx => h x (by simp [hx])
      have e3 := b64Val_b64Char (b % 16 * 4 + c / 64) (by omega)
      have e4 := b64Val_b64Char (c % 64) (by omega)
      simp only [b64encodeChars, b64decodeQuanta]
      rw [b64Val_b64Char _ (by omega), b64Val_b64Char _ (by omega)]
      simp [b64Char_ne_pad, e3, e4, ih hrest]
      omega

/-- Inversion: `base64.b64decode` undoes `base64.b64encode` on byte strings. -/
theorem b64decodeChars_encode (bs : List Nat) (h : ∀ b ∈ bs, b < 256) :
    b64decodeChars (b64encodeChars bs) = some bs := by
  unfold b64decodeChars
  rw [List.filter_eq_self.mpr (b64encodeChars_mem bs)]
  rw [if_pos (b64encodeChars_length bs)]
  exact b64decodeQuanta_encode bs h


/-- Every byte produced by the UTF-8 encoder is below 256. -/
theorem utf8EncodeChar_lt (c : Char) : ∀ b ∈ utf8EncodeChar c, b < 256 := by
  have hv : c.toNat < 0xd800 ∨ (0xdfff < c.toNat ∧ c.toNat < 0x110000) := c.valid
  intro b hb
  unfold utf8EncodeChar at hb
  by_cases h1 : c.toNat < 0x80
  · rw [if_pos h1] at hb
    simp only [List.mem_singleton] at hb
    omega
  · by_cases h2 : c.toNat < 0x800
    · rw [if_neg h1, if_pos h2] at hb
      simp only [List.mem_cons, List.not_mem_nil, or_false] at hb
      rcases hb with h | h <;> omega
    · by_cases h3 : c.toNat < 0x10000
      · rw [if_neg h1, if_neg h2, if_pos h3] at hb
        simp only [List.mem_cons, List.not_mem_nil, or_false] at hb
        rcases hb with h | h | h <;> omega
      · rw [if_neg h1, if_neg h2, if_neg h3] at hb
        simp only [List.mem_cons, List.not_mem_nil, or_false] at hb
        rcases hb with h | h | h | h <;> omega

theorem utf8EncodeStr_lt (s : String) : ∀ b ∈ utf8EncodeStr s, b < 256 := by
  intro b hb
  unfold utf8EncodeStr at hb
  rw [List.mem_flatten] at hb
  obtain ⟨l, hl, hbl⟩ := hb
  rw [List.mem_map] at hl
  obtain ⟨c, _, rfl⟩ := hl
  exact utf8EncodeChar_lt c b hbl

/-- The UTF-8 encoding of a character is never empty. -/
theorem utf8EncodeChar_ne_nil (c : Char) : utf8EncodeChar c ≠ [] := by
  unfold utf8EncodeChar
  by_cases h1 : c.toNat < 0x80
  · simp [h1]
  · by_cases h2 : c.toNat < 0x800
    · simp [h1, h2]
    · by_cases h3 : c.toNat < 0x10000
      · simp [h1, h2, h3]
      · simp [h1, h2, h3]

/-- A non-empty string has a non-empty UTF-8 encoding (so `len(key_bytes)`
is nonzero exactly when the key is non-empty). -/
theorem utf8EncodeStr_ne_nil (s : String) (h : s ≠ "") : utf8EncodeStr s ≠ [] := by
  unfold utf8EncodeStr
  cases hs : s.data with
  | nil =>
      exfalso
      apply h
      cases s
      simp at hs
      simp [hs]
  | cons c cs =>
      simp only [hs, List.map_cons, List.flatten_cons]
      intro hcontra
      have := List.append_eq_nil.mp hcontra
      exact utf8EncodeChar_ne_nil c this.1

/-! ### UTF-8 round-trip lemmas -/

theorem utf8DecodeBytes_nil : utf8DecodeBytes [] = some [] := rfl

theorem utf8DecodeOne_length (b : Nat) (rest : List Nat) (p : Char × List Nat)
    (hp : utf8DecodeOne (b :: rest) = some p) : p.2.length ≤ rest.length := by
  simp only [utf8DecodeOne] at hp
  split_ifs at hp
  all_goals rw [Option.some.injEq] at hp
  all_goals subst hp
  all_goals dsimp only
  all_goals try simp only [List.length_drop]
  all_goals omega

theorem utf8DecodeLoop_mono (fuel : Nat) : ∀ l : List Nat, l.length ≤ fuel →
    utf8DecodeLoop fuel l = utf8DecodeBytes l := by
  induction fuel using Nat.strong_induction_on with
  | _ fuel ih =>
      intro l hl
      cases l with
      | nil =>
          cases fuel with
          | zero => rfl
          | succ f => rfl
      | cons b rest =>
          have hlen : (b :: rest).length = rest.length + 1 := by simp
          have hfl : rest.length + 1 ≤ fuel := by omega
          obtain ⟨f, rfl⟩ : ∃ f, fuel = f + 1 := ⟨fuel - 1, by omega⟩
          show utf8DecodeLoop (f + 1) (b :: rest) = utf8DecodeLoop (b :: rest).length (b :: rest)
          simp only [List.length_cons]
          rw [utf8DecodeLoop, utf8DecodeLoop]
          cases ho : utf8DecodeOne (b :: rest) with
          | none => rfl
          | some p =>
              have hle := utf8DecodeOne_length b rest p ho
              simp only [Option.some_bind]
              rw [ih f (by omega) p.2 (by omega)]
              rw [ih rest.length (by omega) p.2 (by omega)]

theorem utf8DecodeOne_encChar (c : Char) (rest : List Nat) :
    utf8DecodeOne (utf8EncodeChar c ++ rest) = some (c, rest) := by
  have hv : c.toNat < 0xd800 ∨ (0xdfff < c.toNat ∧ c.toNat < 0x110000) := c.valid
  by_cases h1 : c.toNat < 0x80
  · rw [utf8EncodeChar, if_pos h1, List.singleton_append]
    rw [utf8DecodeOne, if_pos h1, Char.ofNat_toNat]
  · by_cases h2 : c.toNat < 0x800
    · rw [utf8EncodeChar, if_neg h1, if_pos h2]
      simp only [List.cons_append, List.nil_append]
      rw [utf8DecodeOne]
      simp only [List.getD_cons_zero, List.getD_cons_succ, List.drop_succ_cons,
        List.drop_zero]
      rw [if_neg (by omega), if_neg (by omega), if_pos (by omega)]
      have harg : (0xC0 + c.toNat / 64 - 0xC0) * 64 + (0x80 + c.toNat % 64 - 0x80)
          = c.toNat := by omega
      rw [harg, Char.ofNat_toNat, if_pos (by omega)]
    · by_cases h3 : c.toNat < 0x10000
      · rw [utf8EncodeChar, if_neg h1, if_neg h2, if_pos h3]
        simp only [List.cons_append, List.nil_append]
        rw [utf8DecodeOne]
        simp only [List.getD_cons_zero, List.getD_cons_succ, List.drop_succ_cons,
          List.drop_zero]
        rw [if_neg (by omega), if_neg (by omega), if_neg (by omega), if_pos (by omega),
          if_pos (by omega)]
        have harg : (0xE0 + c.toNat / 4096 - 0xE0) * 4096 +
            (0x80 + c.toNat / 64 % 64 - 0x80) * 64 + (0x80 + c.toNat % 64 - 0x80)
            = c.toNat := by omega
        rw [harg, Char.ofNat_toNat]
      · rw [utf8EncodeChar, if_neg h1, if_neg h2, if_neg h3]
        simp only [List.cons_append, List.nil_append]
        rw [utf8DecodeOne]
        simp only [List.getD_cons_zero, List.getD_cons_succ, List.drop_succ_cons,
          List.drop_zero]
        rw [if_neg (by omega), if_neg (by omega), if_neg (by omega), if_neg (by omega),
          if_pos (by omega), if_pos (by omega)]
        have harg : (0xF0 + c.toNat / 262144 - 0xF0) * 262144 +
            (0x80 + c.toNat / 4096 % 64 - 0x80) * 4096 +
            (0x80 + c.toNat / 64 % 64 - 0x80) * 64 + (0x80 + c.toNat % 64 - 0x80)
            = c.toNat := by omega
        rw [harg, Char.ofNat_toNat]

theorem utf8DecodeBytes_encChar (c : Char) (rest : List Nat) :
    utf8DecodeBytes (utf8EncodeChar c ++ rest) =
      (utf8DecodeBytes rest).map (fun cs => c :: cs) := by
  cases he : utf8EncodeChar c with
  | nil => exact absurd he (utf8EncodeChar_ne_nil c)
  | cons e0 etail =>
      have hone : utf8DecodeOne (e0 :: (etail ++ rest)) = some (c, rest) := by
        rw [← List.cons_append, ← he]
        exact utf8DecodeOne_encChar c rest
      have happ : (etail ++ rest).length = etail.length + rest.length := by simp
      show utf8DecodeLoop (e0 :: (etail ++ rest)).length (e0 :: (etail ++ rest))
        = (utf8DecodeBytes rest).map (fun cs => c :: cs)
      simp only [List.length_cons]
      rw [utf8DecodeLoop]
      rw [hone, Option.some_bind]
      rw [utf8DecodeLoop_mono _ rest (by omega)]

/-- Inversion: `bytes.decode('utf-8')` undoes `str.encode('utf-8')`. -/
theorem utf8DecodeBytes_encode (s : List Char) :
    utf8DecodeBytes ((s.map utf8EncodeChar).flatten) = some s := by
  induction s with
  | nil => exact utf8DecodeBytes_nil
  | cons c cs ih =>
      simp only [List.map_cons, List.flatten_cons]
      rw [utf8DecodeBytes_encChar, ih]
      rfl

theorem utf8DecodeStr_encode (s : String) :
    utf8DecodeStr (utf8EncodeStr s) = some s := by
  unfold utf8DecodeStr utf8EncodeStr
  rw [utf8DecodeBytes_encode]
  cases s
  rfl

/-! ### Repeating-key XOR lemmas -/

theorem length_flatten_replicate {α : Type} (m : Nat) (l : List α) :
    ((List.replicate m l).flatten).length = m * l.length := by
  induction m with
  | zero => simp
  | succ j ih =>
      simp only [List.replicate_succ, List.flatten_cons, List.length_append, ih,
        Nat.succ_mul]
      omega

theorem extendKey_length (kb : List Nat) (hk : kb ≠ []) (n : Nat) :
    (extendKey kb n).length = n := by
  have hL : 0 < kb.length := List.length_pos.mpr hk
  have hlt : n < (n / kb.length + 1) * kb.length :=
    (Nat.div_lt_iff_lt_mul hL).mp (Nat.lt_succ_self _)
  unfold extendKey
  rw [List.length_take, length_flatten_replicate, Nat.min_eq_left (Nat.le_of_lt hlt)]

theorem extendKey_mem (kb : List Nat) (n : Nat) (hk : ∀ b ∈ kb, b < 256) :
    ∀ b ∈ extendKey kb n, b < 256 := by
  intro b hb
  unfold extendKey at hb
  have hb' := List.mem_of_mem_take hb
  rw [List.mem_flatten] at hb'
  obtain ⟨l, hl, hbl⟩ := hb'
  rw [List.eq_of_mem_replicate hl] at hbl
  exact hk b hbl

theorem xorBytes_length (xs ks : List Nat) :
    (xorBytes xs ks).length = min xs.length ks.length := by
  unfold xorBytes
  exact List.length_zipWith _ _ _

theorem xorBytes_lt (xs : List Nat) : ∀ ks : List Nat, (∀ b ∈ xs, b < 256) →
    (∀ b ∈ ks, b < 256) → ∀ b ∈ xorBytes xs ks, b < 256 := by
  induction xs with
  | nil => intro ks _ _ b hb; simp [xorBytes] at hb
  | cons x xt ih =>
      intro ks hx hk b hb
      cases ks with
      | nil => simp [xorBytes] at hb
      | cons kk kt =>
          simp only [xorBytes, List.zipWith_cons_cons, List.mem_cons] at hb
          rcases hb with rfl | hb
          · have hx1 : x < 256 := hx x (by simp)
            have hk1 : kk < 256 := hk kk (by simp)
            have hlt : x ^^^ kk < 2 ^ 8 :=
              Nat.xor_lt_two_pow (by norm_num [hx1]) (by norm_num [hk1])
            norm_num at hlt
            exact hlt
          · exact ih kt (fun y hy => hx y (by simp [hy])) (fun y hy => hk y (by simp [hy]))
              b hb

theorem xorBytes_cancel (xs : List Nat) : ∀ ks : List Nat, xs.length ≤ ks.length →
    xorBytes (xorBytes xs ks) ks = xs := by
  induction xs with
  | nil => intro ks _; rfl
  | cons x xt ih =>
      intro ks h
      cases ks with
      | nil => simp at h
      | cons kk kt =>
          simp only [xorBytes, List.zipWith_cons_cons]
          rw [Nat.xor_cancel_right]
          have hrec := ih kt (by simpa using h)
          unfold xorBytes at hrec
          rw [hrec]

/-! ### `simple_encrypt` / `simple_decrypt` round trip -/

theorem b64encodeChars_ascii (bs : List Nat) :
    allAscii (String.mk (b64encodeChars bs)) = true := by
  have hmem := b64encodeChars_mem bs
  unfold allAscii
  rw [List.all_eq_true]
  intro c hc
  have hc' := hmem c hc
  rcases Bool.or_eq_true_iff.mp hc' with h | h
  · have halpha : ∀ x ∈ b64Alphabet, x.toNat < 128 := by decide
    have hcm : c ∈ b64Alphabet := by
      unfold isB64Char at h
      exact List.mem_of_elem_eq_true h
    simpa using halpha c hcm
  · have : c = '=' := by simpa using h
    subst this
    decide

/-- Model of `simple_decrypt` inverts `simple_encrypt` for any non-empty key. -/
theorem simple_encrypt_decrypt_roundtrip (p k : String) (hk : k ≠ "") :
    (simple_encrypt p k).map (fun e => simple_decrypt e k) = some p := by
  have hkb : utf8EncodeStr k ≠ [] := utf8EncodeStr_ne_nil k hk
  have hkl : (utf8EncodeStr k).length ≠ 0 := fun hc => hkb (List.length_eq_zero.mp hc)
  have hkmem : ∀ b ∈ utf8EncodeStr k, b < 256 := utf8EncodeStr_lt k
  have hpmem : ∀ b ∈ utf8EncodeStr p, b < 256 := utf8EncodeStr_lt p
  have hekl : (extendKey (utf8EncodeStr k) (utf8EncodeStr p).length).length
      = (utf8EncodeStr p).length := extendKey_length _ hkb _
  have hekmem : ∀ b ∈ extendKey (utf8EncodeStr k) (utf8EncodeStr p).length, b < 256 :=
    extendKey_mem _ _ hkmem
  have hctmem : ∀ b ∈ xorBytes (utf8EncodeStr p)
      (extendKey (utf8EncodeStr k) (utf8EncodeStr p).length), b < 256 :=
    xorBytes_lt _ _ hpmem hekmem
  have hctlen : (xorBytes (utf8EncodeStr p)
      (extendKey (utf8EncodeStr k) (utf8EncodeStr p).length)).length
      = (utf8EncodeStr p).length := by
    rw [xorBytes_length, hekl, Nat.min_self]
  simp only [simple_encrypt]
  rw [if_neg hkl]
  rw [Option.map_some']
  unfold simple_decrypt simple_decryptTry
  rw [if_pos (b64encodeChars_ascii _)]
  rw [show (String.mk (b64encodeChars (xorBytes (utf8EncodeStr p)
        (extendKey (utf8EncodeStr k) (utf8EncodeStr p).length)))).data
      = b64encodeChars (xorBytes (utf8EncodeStr p)
        (extendKey (utf8EncodeStr k) (utf8EncodeStr p).length)) from rfl]
  rw [b64decodeChars_encode _ hctmem]
  rw [Option.some_bind]
  rw [if_neg hkl]
  rw [hctlen]
  rw [xorBytes_cancel _ _ (Nat.le_of_eq hekl.symm)]
  rw [utf8DecodeStr_encode]
  rfl

/-! ### Claim theorems -/

/-- Claim C1 (counterexample): the JSON file token store's `get_token` and
the auth-code store's `get_auth_code` return a record found under the key
even when it is expired, and leave the store unchanged — contradicting the
claim that every store's `get` reports expired records absent and removes
them. -/
theorem C1_counterexample :
    JSONTokenStore.get_token [("oauth_x", c1Tok)] "oauth_x"
      = (some c1Tok, [("oauth_x", c1Tok)]) ∧
    c1Tok.is_expired 10 = true ∧
    AuthCodeStore.get_auth_code [("code_y", c1Code)] "code_y"
      = (some c1Code, [("code_y", c1Code)]) ∧
    c1Code.is_expired 10 = true := by decide

/-- Claim C1 (amended): only the DynamoDB token store's `get_token` reports
an expired record absent and deletes it; the JSON file token store's
`get_token` and the auth-code store's `get_auth_code` return a found record
regardless of expiry and never mutate the store (expiry there is enforced by
the `OAuthHandler` callers). -/
theorem C1_expired_get (now : Nat) (m : TokenMap) (t : String) (d : TokenData)
    (hm : mlookup m t = some d) (hexp : d.is_expired now = true) :
    DynamoDBTokenStore.get_token now m t = (none, merase m t) ∧
    JSONTokenStore.get_token m t = (some d, m) ∧
    (∀ (cm : CodeMap) (c : String) (cd : AuthCodeData), mlookup cm c = some cd →
      AuthCodeStore.get_auth_code cm c = (some cd, cm)) := by
  refine ⟨?_, ?_, ?_⟩
  · simp only [DynamoDBTokenStore.get_token]
    rw [hm]
    simp only [Option.elim_some]
    rw [if_pos hexp]
  · simp only [JSONTokenStore.get_token]
    rw [hm]
  · intro cm c cd hcm
    simp only [AuthCodeStore.get_auth_code]
    rw [hcm]

/-- Claim C1 witness: the amended statement at the concrete expired fixtures. -/
theorem C1_expired_get_witness :
    DynamoDBTokenStore.get_token 10 [("oauth_x", c1Tok)] "oauth_x"
      = (none, merase [("oauth_x", c1Tok)] "oauth_x") ∧
    JSONTokenStore.get_token [("oauth_x", c1Tok)] "oauth_x"
      = (some c1Tok, [("oauth_x", c1Tok)]) ∧
    AuthCodeStore.get_auth_code [("code_y", c1Code)] "code_y"
      = (some c1Code, [("code_y", c1Code)]) := by
  have h := C1_expired_get 10 [("oauth_x", c1Tok)] "oauth_x" c1Tok (by decide) (by decide)
  exact ⟨h.1, h.2.1, h.2.2 [("code_y", c1Code)] "code_y" c1Code (by decide)⟩

/-- Claim C2 (confirmed): after a successful `exchange_code_for_token` the
authorization code is deleted from the code store; a second exchange of the
same code fails with `ValueError("Invalid authorization code")` — which the
`/token` route maps to HTTP 400 `invalid_grant` — leaving the state
unchanged; and a code whose expiry has passed is never exchangeable. -/
theorem C2_single_use_codes (ttl : Nat) (ft : String) (now : Nat) (st : OAuthState)
    (code verifier : String) (cid ruri : Option String) (r : TokenResponse)
    (st' : OAuthState)
    (h : OAuthHandler.exchange_code_for_token ttl ft now st code verifier cid ruri
      = (Except.ok r, st')) :
    mlookup st'.codes code = none ∧
    (∀ (ft2 : String) (now2 : Nat) (v2 : String) (cid2 ruri2 : Option String),
      OAuthHandler.exchange_code_for_token ttl ft2 now2 st' code v2 cid2 ruri2
        = (Except.error "Invalid authorization code", st')) ∧
    (∀ (st2 : OAuthState) (now2 : Nat) (d : AuthCodeData) (ft2 v2 : String)
      (cid2 ruri2 : Option String),
      mlookup st2.codes code = some d → d.expires_at < now2 →
      (OAuthHandler.exchange_code_for_token ttl ft2 now2 st2 code v2 cid2 ruri2).1
        = Except.error "Authorization code expired") := by
  have hdel : st'.codes = merase st.codes code := by
    simp only [OAuthHandler.exchange_code_for_token] at h
    cases hm : mlookup st.codes code with
    | none =>
        rw [hm] at h
        simp at h
    | some d =>
        rw [hm] at h
        simp only [Option.elim_some] at h
        split_ifs at h with h1 h2 h3 h4
        · simp at h
        · simp at h
        · simp at h
        · simp at h
        · rw [Prod.mk.injEq] at h
          rw [← h.2]
  refine ⟨?_, ?_, ?_⟩
  · rw [hdel]
    exact mlookup_merase_self _ _
  · intro ft2 now2 v2 cid2 ruri2
    simp only [OAuthHandler.exchange_code_for_token]
    rw [hdel, mlookup_merase_self]
    simp only [Option.elim_none]
  · intro st2 now2 d ft2 v2 cid2 ruri2 hm2 hexp
    simp only [OAuthHandler.exchange_code_for_token]
    rw [hm2]
    simp only [Option.elim_some]
    rw [if_pos (by simp only [AuthCodeData.is_expired, decide_eq_true_eq]; exact hexp)]

/-- Claim C2 witness: a concrete successful exchange, after which the code
is gone and a retry fails with the invalid-code error. -/
theorem C2_single_use_codes_witness :
    mlookup c2State1.codes "code_c1" = none ∧
    OAuthHandler.exchange_code_for_token 24 "oauth_t2" 200 c2State1 "code_c1" "v"
      none none = (Except.error "Invalid authorization code", c2State1) := by
  have h := C2_single_use_codes 24 "oauth_t1" 100 c2State0 "code_c1" "v" none none
    c2Resp c2State1 (by rfl)
  exact ⟨h.1, h.2.1 "oauth_t2" 200 "v" none none⟩

/-- Claim C5 (confirmed): exchanging a present-but-expired authorization
code deletes the code, raises `ValueError("Authorization code expired")`
(HTTP 400 `invalid_grant` at the route), mints no bearer token, and leaves
the token store unchanged. -/
theorem C5_expired_code_exchange (ttl : Nat) (ft : String) (now : Nat)
    (st : OAuthState) (code v : String) (cid ruri : Option String)
    (d : AuthCodeData) (hm : mlookup st.codes code = some d)
    (hexp : d.expires_at < now) :
    OAuthHandler.exchange_code_for_token ttl ft now st code v cid ruri
      = (Except.error "Authorization code expired",
         { codes := merase st.codes code, tokens := st.tokens }) := by
  simp only [OAuthHandler.exchange_code_for_token]
  rw [hm]
  simp only [Option.elim_some]
  rw [if_pos (by simp only [AuthCodeData.is_expired, decide_eq_true_eq]; exact hexp)]

/-- Claim C5 witness: the expired fixture code is deleted, the error is
raised, and the token store still holds exactly its previous token. -/
theorem C5_expired_code_exchange_witness :
    OAuthHandler.exchange_code_for_token 24 "oauth_new" 1000 c5State "code_e" "v"
      none none
      = (Except.error "Authorization code expired",
         { codes := merase c5State.codes "code_e", tokens := c5State.tokens }) ∧
    merase c5State.codes "code_e" = [] ∧
    c5State.tokens = [("oauth_old", c5Tok)] :=
  ⟨C5_expired_code_exchange 24 "oauth_new" 1000 c5State "code_e" "v" none none
    c5Code (by decide) (by decide), by decide, by decide⟩

/-- Claim C4 (counterexample): a stored token with one empty credential
field is returned by `validate_bearer_token` with the other credential field
still encrypted (decrypting it would change it), contradicting the claim
that on a valid hit the result always carries decrypted credential fields. -/
theorem C4_counterexample :
    (OAuthHandler.validate_bearer_token 10 [("oauth_x", c4Rec)] "oauth_x").1
      = some c4Rec ∧
    c4Rec.extend_api_secret = "U2Vj" ∧
    simple_decrypt "U2Vj" oauthEncryptionKey ≠ "U2Vj" := by decide

/-- Claim C4 (amended): `validate_bearer_token` returns `None` with no store
change for an empty or non-`oauth_`-prefixed token (regardless of the store
contents) and for an unknown token; deletes an expired token and returns
`None`; and on a live hit returns the stored record with both credential
fields decrypted when both are non-empty, and unchanged as stored when
either is empty. -/
theorem C4_validate_bearer_token (now : Nat) (m : TokenMap) (t : String) :
    ((t.isEmpty || !(("oauth_".data).isPrefixOf t.data)) = true →
      ∀ m2 : TokenMap, OAuthHandler.validate_bearer_token now m2 t = (none, m2)) ∧
    ((t.isEmpty || !(("oauth_".data).isPrefixOf t.data)) = false →
      mlookup m t = none →
      OAuthHandler.validate_bearer_token now m t = (none, m)) ∧
    (∀ d : TokenData, (t.isEmpty || !(("oauth_".data).isPrefixOf t.data)) = false →
      mlookup m t = some d → d.is_expired now = true →
      OAuthHandler.validate_bearer_token now m t = (none, merase m t)) ∧
    (∀ d : TokenData, (t.isEmpty || !(("oauth_".data).isPrefixOf t.data)) = false →
      mlookup m t = some d → d.is_expired now = false →
      (!d.extend_api_key.isEmpty && !d.extend_api_secret.isEmpty) = true →
      OAuthHandler.validate_bearer_token now m t =
        (some { d with
            extend_api_key := simple_decrypt d.extend_api_key oauthEncryptionKey,
            extend_api_secret := simple_decrypt d.extend_api_secret oauthEncryptionKey },
         m)) ∧
    (∀ d : TokenData, (t.isEmpty || !(("oauth_".data).isPrefixOf t.data)) = false →
      mlookup m t = some d → d.is_expired now = false →
      (!d.extend_api_key.isEmpty && !d.extend_api_secret.isEmpty) = false →
      OAuthHandler.validate_bearer_token now m t = (some d, m)) := by
  refine ⟨?_, ?_, ?_, ?_, ?_⟩
  · intro h m2
    simp only [OAuthHandler.validate_bearer_token]
    rw [if_pos h]
  · intro hpre hnone
    simp only [OAuthHandler.validate_bearer_token]
    rw [if_neg (by simp [hpre]), hnone]
    rfl
  · intro d hpre hm hexp
    simp only [OAuthHandler.validate_bearer_token]
    rw [if_neg (by simp [hpre]), hm]
    simp only [Option.elim_some]
    rw [if_pos hexp]
  · intro d hpre hm hexp hcred
    simp only [OAuthHandler.validate_bearer_token]
    rw [if_neg (by simp [hpre]), hm]
    simp only [Option.elim_some]
    rw [if_neg (by simp [hexp]), if_pos hcred]
  · intro d hpre hm hexp hcred
    simp only [OAuthHandler.validate_bearer_token]
    rw [if_neg (by simp [hpre]), hm]
    simp only [Option.elim_some]
    rw [if_neg (by simp [hexp]), if_neg (by simp [hcred])]

/-- Claim C4 witness: each branch of the amended statement exercised at
concrete inputs (bad prefix, unknown token, expired token via the C1-style
fixture map reused inline, decrypted hit, and the pass-through hit on the
one-empty-credential fixture). -/
theorem C4_validate_bearer_token_witness :
    OAuthHandler.validate_bearer_token 10 [("oauth_x", c4Rec)] "nope" = (none, [("oauth_x", c4Rec)]) ∧
    OAuthHandler.validate_bearer_token 10 [("oauth_x", c4Rec)] "oauth_missing"
      = (none, [("oauth_x", c4Rec)]) ∧
    OAuthHandler.validate_bearer_token 10 [("oauth_x", c4Rec)] "oauth_x"
      = (some c4Rec, [("oauth_x", c4Rec)]) := by
  have h := C4_validate_bearer_token 10 [("oauth_x", c4Rec)] "nope"
  have h2 := C4_validate_bearer_token 10 [("oauth_x", c4Rec)] "oauth_missing"
  have h3 := C4_validate_bearer_token 10 [("oauth_x", c4Rec)] "oauth_x"
  exact ⟨h.1 (by decide) _, h2.2.1 (by decide) (by decide),
    h3.2.2.2.2 c4Rec (by decide) (by decide) (by decide) (by decide)⟩

/-- Claim C6 (confirmed): `revoke_token` returns `true` exactly for a stored
token and deletes it, after which `validate_bearer_token` returns `None` and
a second `revoke_token` returns `false`; revoking an absent token returns
`false` and leaves the store unchanged. -/
theorem C6_revoke_monotone (now : Nat) (m : TokenMap) (t : String) :
    ((mlookup m t).isSome = true →
      OAuthHandler.revoke_token m t = (true, merase m t) ∧
      OAuthHandler.validate_bearer_token now (merase m t) t = (none, merase m t) ∧
      OAuthHandler.revoke_token (merase m t) t = (false, merase m t)) ∧
    (mlookup m t = none → OAuthHandler.revoke_token m t = (false, m)) := by
  constructor
  · intro h
    refine ⟨?_, ?_, ?_⟩
    · simp only [OAuthHandler.revoke_token, JSONTokenStore.delete_token]
      rw [if_pos h]
    · simp only [OAuthHandler.validate_bearer_token]
      by_cases hpre : (t.isEmpty || !(("oauth_".data).isPrefixOf t.data)) = true
      · rw [if_pos hpre]
      · rw [if_neg hpre, mlookup_merase_self]
        simp only [Option.elim_none]
    · simp only [OAuthHandler.revoke_token, JSONTokenStore.delete_token]
      rw [mlookup_merase_self]
      simp
  · intro h
    simp only [OAuthHandler.revoke_token, JSONTokenStore.delete_token]
    rw [h]
    simp

/-- Claim C6 witness: the revoke chain at the concrete stored token and the
absent-token case on the empty store. -/
theorem C6_revoke_monotone_witness :
    OAuthHandler.revoke_token [("oauth_b", c6Rec)] "oauth_b"
      = (true, merase [("oauth_b", c6Rec)] "oauth_b") ∧
    OAuthHandler.validate_bearer_token 7 (merase [("oauth_b", c6Rec)] "oauth_b")
      "oauth_b" = (none, merase [("oauth_b", c6Rec)] "oauth_b") ∧
    OAuthHandler.revoke_token (merase [("oauth_b", c6Rec)] "oauth_b") "oauth_b"
      = (false, merase [("oauth_b", c6Rec)] "oauth_b") ∧
    OAuthHandler.revoke_token [] "oauth_b" = (false, []) := by
  have h := (C6_revoke_monotone 7 [("oauth_b", c6Rec)] "oauth_b").1 (by decide)
  have h2 := (C6_revoke_monotone 7 [] "oauth_b").2 rfl
  exact ⟨h.1, h.2.1, h.2.2, h2⟩

/-- Claim C7 (counterexample): a `POST /revoke` request without a token
parameter is answered with HTTP 400 `invalid_request`, not the 200
success shape — so not every `/revoke` request yields 200. -/
theorem C7_counterexample :
    OAuthEndpoints.revoke_endpoint none []
      = ((400, RevokeBody.invalidRequest), []) := by decide

/-- Claim C7 (amended): every `POST /revoke` request carrying a non-empty
token parameter is answered with HTTP 200 and body `revoked: true`, whether
or not the token existed; a missing or empty token parameter is rejected
with HTTP 400 `invalid_request`. -/
theorem C7_revoke_endpoint (t : String) (h : t ≠ "") (m : TokenMap) :
    OAuthEndpoints.revoke_endpoint (some t) m
      = ((200, RevokeBody.revokedTrue), (OAuthHandler.revoke_token m t).2) := by
  have hne : t.isEmpty = false := by
    cases hs : t.isEmpty
    · rfl
    · exact absurd ((String.isEmpty_iff t).mp hs) h
  simp only [OAuthEndpoints.revoke_endpoint, pyTruthy]
  rw [hne]
  simp

/-- Claim C7 witness: a non-empty token absent from the store still gets
the 200 success shape. -/
theorem C7_revoke_endpoint_witness :
    OAuthEndpoints.revoke_endpoint (some "oauth_z") []
      = ((200, RevokeBody.revokedTrue), (OAuthHandler.revoke_token [] "oauth_z").2) :=
  C7_revoke_endpoint "oauth_z" (by decide) []

/-- Claim C8 (confirmed): loading the persisted document is total for both
file stores — a missing file, an empty file, and any content the JSON
parser rejects all load as the empty store. -/
theorem C8_load_tolerates_bad_files (s : String) :
    JSONTokenStore.load_tokens none = Json.obj [] ∧
    AuthCodeStore.load_codes none = Json.obj [] ∧
    JSONTokenStore.load_tokens (some "") = Json.obj [] ∧
    AuthCodeStore.load_codes (some "") = Json.obj [] ∧
    (parseJson s = none → JSONTokenStore.load_tokens (some s) = Json.obj []) ∧
    (parseJson s = none → AuthCodeStore.load_codes (some s) = Json.obj []) := by
  refine ⟨rfl, rfl, rfl, rfl, ?_, ?_⟩
  · intro hs
    simp only [JSONTokenStore.load_tokens]
    rw [hs]
    rfl
  · intro hs
    simp only [AuthCodeStore.load_codes]
    rw [hs]
    rfl

/-- Claim C8 witness: a concrete malformed document (an unterminated object)
loads as the empty store in both stores. -/
theorem C8_load_tolerates_bad_files_witness :
    JSONTokenStore.load_tokens (some "\x7bbad") = Json.obj [] ∧
    AuthCodeStore.load_codes (some "\x7bbad") = Json.obj [] := by
  have h := C8_load_tolerates_bad_files "\x7bbad"
  exact ⟨h.2.2.2.2.1 rfl, h.2.2.2.2.2 rfl⟩

/-- Claim C9 (confirmed): `simple_decrypt` is total — for every input and
key it returns the successful decryption when every step of the `try` body
succeeds, and returns the input string unchanged whenever any step fails. -/
theorem C9_decrypt_never_raises (enc key : String) :
    (simple_decryptTry enc key = none → simple_decrypt enc key = enc) ∧
    (∀ s : String, simple_decryptTry enc key = some s → simple_decrypt enc key = s) := by
  constructor
  · intro h
    simp only [simple_decrypt]
    rw [h]
    rfl
  · intro s h
    simp only [simple_decrypt]
    rw [h]
    rfl

/-- Claim C9 witness: `"A"` is rejected by the base64 step (incorrect
padding) and is returned unchanged. -/
theorem C9_decrypt_never_raises_witness :
    simple_decryptTry "A" "key" = none ∧ simple_decrypt "A" "key" = "A" :=
  ⟨by decide, (C9_decrypt_never_raises "A" "key").1 (by decide)⟩

/-- Claim C10 witness: the round trip evaluated at a concrete plaintext and
key. -/
theorem C10_roundtrip_witness :
    ("key" : String) ≠ "" ∧
    (simple_encrypt "hello" "key").map (fun e => simple_decrypt e "key")
      = some "hello" :=
  ⟨by decide, simple_encrypt_decrypt_roundtrip "hello" "key" (by decide)⟩

/-! ### PKCE round trip (the provable half of the S256 property)

The other half of the spec's PKCE property — that changing any single
character of the verifier makes verification fail — is the absence of
Hamming-distance-one second preimages for SHA-256, a cryptographic
conjecture that is not formally decidable here. -/

theorem b64UrlNoPad_ascii (bs : List Nat) : allAscii (b64UrlNoPad bs) = true := by
  unfold allAscii b64UrlNoPad
  rw [List.all_eq_true]
  intro c hc
  have hc' := List.mem_of_mem_filter hc
  rw [List.mem_map] at hc'
  obtain ⟨c0, hc0, rfl⟩ := hc'
  have hmem := b64encodeChars_mem bs c0 hc0
  rcases Bool.or_eq_true_iff.mp hmem with h | h
  · have halpha : ∀ x ∈ b64Alphabet,
        ((if x = '+' then '-' else if x = '/' then '_' else x).toNat < 128) := by decide
    have hcm : c0 ∈ b64Alphabet := by
      unfold isB64Char at h
      exact List.mem_of_elem_eq_true h
    simpa using halpha c0 hcm
  · have hpad : c0 = '=' := by simpa using h
    subst hpad
    decide

/-- Round-trip half of the spec's PKCE property: a challenge generated from
an ASCII verifier with method S256 always verifies against that verifier. -/
theorem verify_pkce_roundtrip_s256 (v ch : String) (hv : allAscii v = true)
    (hch : generate_pkce_challenge v "S256" = some ch) :
    verify_pkce_challenge v ch "S256" = true := by
  have hform : ch = b64UrlNoPad (sha256 (v.data.map Char.toNat)) := by
    simp only [generate_pkce_challenge] at hch
    rw [if_pos trivial, if_pos hv] at hch
    exact (Option.some.injEq _ _).mp hch.symm
  simp only [verify_pkce_challenge]
  rw [hch]
  simp only [Option.elim_some]
  rw [hform, if_pos]
  · simp
  · rw [b64UrlNoPad_ascii]
    rfl
